import Mathlib

/-!
Verification of the news-tldr-toolkit extraction and summarisation core.

The Python sources are shallowly embedded: strings are Lean `String`
(lists of characters), Python string methods (`strip`, `splitlines`,
`split`, `replace`, `lower`, slicing, the `in` operator) are modelled as
executable functions below, faithful to CPython semantics on the
character level.  The summarisation model (a third-party transformer
pipeline) is an oracle parameter `model : String → Int → Int → List String`
mapping (input text, max_length, min_length) to the list of candidate
texts it produces; the `summarise` embedding also records the calls it
makes to the oracle so that claims about what is (not) passed to the
model can be stated.
-/

namespace NewsTldr

/-- Python `str.isspace` characters stripped by `str.strip()` (ASCII and
the common Unicode whitespace code points). -/
def pyIsSpace (c : Char) : Bool :=
  c = ' ' || c = '\t' || c = '\n' || c = '\r' || c = '\x0b' || c = '\x0c' ||
  c = '\x1c' || c = '\x1d' || c = '\x1e' || c = '\x1f' || c = '\x85' || c = '\xa0' ||
  c = ' ' || (' ' ≤ c && c ≤ ' ') || c = ' ' || c = ' ' ||
  c = ' ' || c = ' ' || c = '　'

/-- Drop characters satisfying `p` from both ends of a character list. -/
def stripChars (p : Char → Bool) (l : List Char) : List Char :=
  ((l.dropWhile p).reverse.dropWhile p).reverse

/-- Python `s.strip()`. -/
def pyStrip (s : String) : String := ⟨stripChars pyIsSpace s.data⟩

/-- Line-break characters recognised by Python `str.splitlines`. -/
def isLineBreak (c : Char) : Bool :=
  c = '\n' || c = '\r' || c = '\x0b' || c = '\x0c' ||
  c = '\x1c' || c = '\x1d' || c = '\x1e' || c = '\x85' || c = ' ' || c = ' '

/-- Worker for `pySplitlines`: `acc` is the reversed current line. -/
def splitlinesGo : List Char → List Char → List (List Char)
  | [], acc => if acc.isEmpty then [] else [acc.reverse]
  | '\r' :: '\n' :: rest, acc => acc.reverse :: splitlinesGo rest []
  | c :: rest, acc =>
    if isLineBreak c then acc.reverse :: splitlinesGo rest []
    else splitlinesGo rest (c :: acc)

/-- Python `s.splitlines()`: splits on line boundaries (treating `\r\n` as
one boundary), with no trailing empty line for a terminal newline. -/
def pySplitlines (s : String) : List String :=
  (splitlinesGo s.data []).map fun l => ⟨l⟩

/-- Worker for Python `s.split(". ")`: splits on the literal two-character
separator period-space, left to right, keeping empty fragments. -/
def splitDotSpace : List Char → List Char → List (List Char)
  | [], acc => [acc.reverse]
  | '.' :: ' ' :: rest, acc => acc.reverse :: splitDotSpace rest []
  | c :: rest, acc => splitDotSpace rest (c :: acc)

/-- Python `s.lower()` (ASCII case folding, which is all the sources use). -/
def pyLower (s : String) : String := ⟨s.data.map Char.toLower⟩

/-- Python `pat in hay` for strings: `pat` occurs contiguously in `hay`. -/
def listContains : List Char → List Char → Bool
  | [], pat => pat.isPrefixOf []
  | c :: t, pat => pat.isPrefixOf (c :: t) || listContains t pat

/-- Python `needle in hay` on strings. -/
def strContains (hay needle : String) : Bool := listContains hay.data needle.data

/-! ## Data model (src/summariser.py and news_digest.py) -/

/-- Result record of `NewsSummariser.summarise` (src/summariser.py lines 9-12). -/
structure SummaryResult where
  tldr : String
  bullet_points : List String
deriving Repr, DecidableEq

/-- One feed item dict produced by `fetch_feed_items` (news_digest.py lines 68-74). -/
structure FeedItem where
  title : String
  link : String
  description : String
deriving Repr, DecidableEq

/-! ## Summariser (src/summariser.py, `NewsSummariser.summarise`) -/

/-- One invocation of the summarisation pipeline: the input text and the
`max_length` / `min_length` keyword arguments passed along with it. -/
structure ModelCall where
  input : String
  max_length : Int
  min_length : Int
deriving Repr, DecidableEq

/-- Python exception raised by `summary_output[0]` on an empty list. -/
inductive PyError where
  | indexError
deriving Repr, DecidableEq

/-- Token budget of src/summariser.py line 59: `max(50, min(200, max_chars))`. -/
def effTokens (max_chars : Int) : Int := max 50 (min 200 max_chars)

/-- Minimum generation length `max_tokens // 4` (src/summariser.py lines 65 and 85);
`Int.fdiv` is Python floor division. -/
def minLen (max_chars : Int) : Int := Int.fdiv (effTokens max_chars) 4

/-- Input cap of src/summariser.py lines 53-55: texts longer than 4000
characters are cut to their first 4000 characters. -/
def truncInput (t : String) : String :=
  if t.length > 4000 then ⟨t.data.take 4000⟩ else t

/-- Bullet-prompt instruction prefix (src/summariser.py lines 76-80). -/
def bulletInstr : String :=
  "Summarise the following text into 3–5 short bullet points. " ++
  "Return them as separate lines, each starting with a dash \x27-\x27.\n\n"

/-- Loop body of src/summariser.py lines 95-102: strip the line, skip it if
empty, strip one leading bullet character from `-`, `•`, `*` and re-strip. -/
def parseLine (line : String) : Option String :=
  match stripChars pyIsSpace line.data with
  | [] => none
  | c :: rest =>
    if c = '-' ∨ c = '•' ∨ c = '*' then some ⟨stripChars pyIsSpace rest⟩
    else some ⟨c :: rest⟩

/-- Line-based bullet parse of src/summariser.py lines 94-102. -/
def lineParse (s : String) : List String :=
  (pySplitlines s).filterMap parseLine

/-- Sentence-split fallback of src/summariser.py lines 106-107:
`bullets_text.replace("•", "").split(". ")`, then
`[p.strip().strip(".") for p in parts if p.strip()]`.
Note `strip(".")` removes periods from both ends. -/
def fallbackSplit (s : String) : List String :=
  let parts := splitDotSpace (s.data.filter fun c => c ≠ '•') []
  (parts.filter fun p => stripChars pyIsSpace p ≠ []).map
    fun p => ⟨stripChars (fun c => c = '.') (stripChars pyIsSpace p)⟩

/-- Fallback as claim C2 words it, for comparison with `fallbackSplit`:
identical except that only trailing periods are stripped from each trimmed
fragment, leading periods being left intact. -/
def fallbackSpecWorded (s : String) : List String :=
  let parts := splitDotSpace (s.data.filter fun c => c ≠ '•') []
  (parts.filter fun p => stripChars pyIsSpace p ≠ []).map
    fun p => ⟨((stripChars pyIsSpace p).reverse.dropWhile fun c => c = '.').reverse⟩

/-- Embedding of `NewsSummariser.summarise` (src/summariser.py lines 37-112).
Returns the result (or the Python exception escaping the call) together
with the list of pipeline invocations made, in order. -/
def summarise (model : String → Int → Int → List String)
    (text : String) (max_chars : Int) :
    Except PyError SummaryResult × List ModelCall :=
  let text := pyStrip text
  if text = "" then (Except.ok ⟨"", []⟩, [])
  else
    let text := truncInput text
    let max_tokens := effTokens max_chars
    let call₁ : ModelCall := ⟨text, max_tokens, Int.fdiv max_tokens 4⟩
    match model text max_tokens (Int.fdiv max_tokens 4) with
    | [] => (Except.error PyError.indexError, [call₁])
    | c :: _ =>
      let tldr := pyStrip c
      let prompt := bulletInstr ++ text
      let call₂ : ModelCall := ⟨prompt, max_tokens, Int.fdiv max_tokens 4⟩
      match model prompt max_tokens (Int.fdiv max_tokens 4) with
      | [] => (Except.error PyError.indexError, [call₁, call₂])
      | b :: _ =>
        let bullets_text := pyStrip b
        let bullet_lines := lineParse bullets_text
        let bullet_lines :=
          if bullet_lines.length ≤ 1 then fallbackSplit bullets_text else bullet_lines
        (Except.ok ⟨tldr, bullet_lines.take 5⟩, [call₁, call₂])

/-! ## Feed parsing (news_digest.py, `fetch_feed_items`) -/

/-- A tag as found by BeautifulSoup `find`: its joined stripped text, whether
it has no contents (an empty tag is falsy in Python), and its `href`
attribute if present. -/
structure XmlTag where
  text : String
  isEmpty : Bool
  href : Option String
deriving Repr, DecidableEq

/-- One `<item>`/`<entry>` element of the parsed document, abstracted to the
`find` results the loop body of `fetch_feed_items` inspects. -/
structure XmlElement where
  title : Option XmlTag
  link : Option XmlTag
  description : Option XmlTag
  summary : Option XmlTag
deriving Repr, DecidableEq

/-- `tag.get_text(strip=True)`: an empty tag yields the empty string. -/
def tagText (t : XmlTag) : String := if t.isEmpty then "" else pyStrip t.text

/-- Python truthiness of a BeautifulSoup tag: falsy when it has no contents. -/
def tagTruthy (t : XmlTag) : Bool := !t.isEmpty

/-- Title extraction (news_digest.py line 56). -/
def elemTitle (e : XmlElement) : String := (e.title.map tagText).getD ""

/-- Evaluation of `item.find("description") or item.find("summary")`
(news_digest.py line 54), with Python `or` falling through on a falsy tag. -/
def elemDescTag (e : XmlElement) : Option XmlTag :=
  match e.description with
  | some d => if tagTruthy d then some d else e.summary
  | none => e.summary

/-- Description extraction (news_digest.py line 63). -/
def elemDesc (e : XmlElement) : String := ((elemDescTag e).map tagText).getD ""

/-- Link extraction (news_digest.py lines 58-61). -/
def elemLink (e : XmlElement) : String :=
  match e.link with
  | none => ""
  | some t =>
    if tagTruthy t && t.href.isSome then t.href.getD ""
    else if tagTruthy t then tagText t else ""

/-- Per-element body of the loop in `fetch_feed_items` (news_digest.py
lines 51-74): skip when both title and description are empty. -/
def extractItem (e : XmlElement) : Option FeedItem :=
  if elemTitle e = "" ∧ elemDesc e = "" then none
  else some ⟨elemTitle e, elemLink e, elemDesc e⟩

/-- Append step of the loop in `fetch_feed_items`: `items.append(...)` when
the element is kept, nothing when it is skipped. -/
def appendItem : List FeedItem → Option FeedItem → List FeedItem
  | acc, some it => acc ++ [it]
  | acc, none => acc

/-- The item-collection loop of `fetch_feed_items`, appending in document
order. -/
def parseItems (elems : List XmlElement) : List FeedItem :=
  elems.foldl (fun acc e => appendItem acc (extractItem e)) []

/-! ## Keyword matching (news_digest.py, `main`, lines 131-136) -/

/-- Matching loop of news_digest.py lines 131-136: keep the items whose
lowercased `title + " " + description` contains the lowercased query. -/
def matchItems (query : String) (items : List FeedItem) : List FeedItem :=
  let ql := pyLower query
  items.foldl
    (fun acc it =>
      if strContains (pyLower (it.title ++ " " ++ it.description)) ql then acc ++ [it]
      else acc)
    []

/-! ## Helper lemmas -/

/-- Path lemma: empty (after stripping) input returns immediately with no
model call. -/
theorem summarise_empty (model : String → Int → Int → List String)
    (text : String) (mc : Int) (h : pyStrip text = "") :
    summarise model text mc = (Except.ok ⟨"", []⟩, []) := by
  simp [summarise, h]

/-- Path lemma: the TL;DR call producing no candidate raises `IndexError`
after a single model call. -/
theorem summarise_err1 (model : String → Int → Int → List String)
    (text : String) (mc : Int) (h : pyStrip text ≠ "")
    (h1 : model (truncInput (pyStrip text)) (effTokens mc) (minLen mc) = []) :
    summarise model text mc =
      (Except.error PyError.indexError,
       [⟨truncInput (pyStrip text), effTokens mc, minLen mc⟩]) := by
  simp only [minLen] at h1 ⊢
  simp [summarise, if_neg h, h1]

/-- Path lemma: the bullet call producing no candidate raises `IndexError`
after two model calls. -/
theorem summarise_err2 (model : String → Int → Int → List String)
    (text : String) (mc : Int) (tl : String) (tls : List String)
    (h : pyStrip text ≠ "")
    (h1 : model (truncInput (pyStrip text)) (effTokens mc) (minLen mc) = tl :: tls)
    (h2 : model (bulletInstr ++ truncInput (pyStrip text)) (effTokens mc) (minLen mc) = []) :
    summarise model text mc =
      (Except.error PyError.indexError,
       [⟨truncInput (pyStrip text), effTokens mc, minLen mc⟩,
        ⟨bulletInstr ++ truncInput (pyStrip text), effTokens mc, minLen mc⟩]) := by
  simp only [minLen] at h1 h2 ⊢
  simp [summarise, if_neg h, h1, h2]

/-- Path lemma: both calls producing a candidate yields the parsed result. -/
theorem summarise_ok (model : String → Int → Int → List String)
    (text : String) (mc : Int) (tl b : String) (tls bs : List String)
    (h : pyStrip text ≠ "")
    (h1 : model (truncInput (pyStrip text)) (effTokens mc) (minLen mc) = tl :: tls)
    (h2 : model (bulletInstr ++ truncInput (pyStrip text)) (effTokens mc) (minLen mc) = b :: bs) :
    summarise model text mc =
      (Except.ok ⟨pyStrip tl,
        (if (lineParse (pyStrip b)).length ≤ 1 then fallbackSplit (pyStrip b)
         else lineParse (pyStrip b)).take 5⟩,
       [⟨truncInput (pyStrip text), effTokens mc, minLen mc⟩,
        ⟨bulletInstr ++ truncInput (pyStrip text), effTokens mc, minLen mc⟩]) := by
  simp only [minLen] at h1 h2 ⊢
  simp [summarise, if_neg h, h1, h2]

/-- Accumulating append-loops are filters. -/
theorem foldl_append_filter {α : Type} (p : α → Bool) (l : List α) (acc : List α) :
    l.foldl (fun a x => if p x then a ++ [x] else a) acc = acc ++ l.filter p := by
  induction l generalizing acc with
  | nil => simp
  | cons x xs ih =>
    by_cases hx : p x <;> simp [hx, ih, List.filter_cons]

/-- Computation rule for `appendItem` on a kept element. -/
theorem appendItem_some (acc : List FeedItem) (it : FeedItem) :
    appendItem acc (some it) = acc ++ [it] := rfl

/-- Computation rule for `appendItem` on a skipped element. -/
theorem appendItem_none (acc : List FeedItem) : appendItem acc none = acc := rfl

/-- The item-collection loop with a skip case is a filterMap. -/
theorem foldl_appendItem_filterMap (elems : List XmlElement) (acc : List FeedItem) :
    elems.foldl (fun acc e => appendItem acc (extractItem e)) acc
      = acc ++ elems.filterMap extractItem := by
  induction elems generalizing acc with
  | nil => simp
  | cons x xs ih =>
    cases hx : extractItem x <;>
      simp [hx, appendItem_some, appendItem_none, ih, List.filterMap_cons]

/-- Characterisation of `List.isPrefixOf` on characters. -/
theorem isPrefixOf_exists (p l : List Char) :
    p.isPrefixOf l = true ↔ ∃ r, p ++ r = l := by
  induction p generalizing l with
  | nil => simp [List.isPrefixOf]
  | cons a as ih =>
    cases l with
    | nil => simp [List.isPrefixOf]
    | cons b bs =>
      simp only [List.isPrefixOf, Bool.and_eq_true, beq_iff_eq, ih]
      constructor
      · rintro ⟨rfl, r, rfl⟩
        exact ⟨r, rfl⟩
      · rintro ⟨r, hr⟩
        injection hr with hb hrest
        exact ⟨hb, r, hrest⟩

/-- The loop `listContains` decides contiguous-substring occurrence, which is
what Python `in` means on strings. -/
theorem listContains_iff (hay pat : List Char) :
    listContains hay pat = true ↔ ∃ l r, l ++ (pat ++ r) = hay := by
  induction hay with
  | nil =>
    simp only [listContains, isPrefixOf_exists]
    constructor
    · rintro ⟨r, hr⟩
      exact ⟨[], r, hr⟩
    · rintro ⟨l, r, hlr⟩
      rcases List.append_eq_nil.mp hlr with ⟨-, h2⟩
      exact ⟨r, h2⟩
  | cons c t ih =>
    simp only [listContains, Bool.or_eq_true, isPrefixOf_exists, ih]
    constructor
    · rintro (⟨r, hr⟩ | ⟨l, r, rfl⟩)
      · exact ⟨[], r, hr⟩
      · exact ⟨c :: l, r, rfl⟩
    · rintro ⟨l, r, hlr⟩
      cases l with
      | nil => exact Or.inl ⟨r, hlr⟩
      | cons a l' =>
        injection hlr with ha hrest
        exact Or.inr ⟨l', r, hrest⟩

/-- The empty pattern occurs in every haystack. -/
theorem listContains_nil (hay : List Char) : listContains hay [] = true := by
  cases hay <;> simp [listContains, List.isPrefixOf]

/-- The matching loop of `main` is a filter over the items. -/
theorem matchItems_eq_filter (q : String) (items : List FeedItem) :
    matchItems q items =
      items.filter fun it =>
        strContains (pyLower (it.title ++ " " ++ it.description)) (pyLower q) := by
  simp only [matchItems]
  rw [foldl_append_filter]
  simp

/-! ## Claims -/

/-- Claim C5: for every input text that is empty or whitespace-only after
trimming, `summarise` returns `SummaryResult` with `tldr = ""` and
`bullet_points = []` immediately, and the list of model invocations is
empty (the model is not invoked at all). -/
theorem C5_empty_input :
    ∀ (model : String → Int → Int → List String) (text : String) (mc : Int),
      pyStrip text = "" →
      summarise model text mc = (Except.ok ⟨"", []⟩, []) :=
  fun model text mc h => summarise_empty model text mc h

/-- Witness for C5 at the whitespace-only input `"  \n\t "`. -/
theorem C5_empty_input_witness :
    summarise (fun _ _ _ => ["x"]) "  \n\t " 300 = (Except.ok ⟨"", []⟩, []) :=
  C5_empty_input (fun _ _ _ => ["x"]) "  \n\t " 300 (by decide)

/-- Claim C1 (amended): for every model bullet-draft output, the
`bullet_points` list of the `SummaryResult` returned by `summarise` has at
most 5 entries; entries, however, may be empty after trimming (a draft
line consisting of a lone bullet marker is stripped to the empty string
and kept), so only the length bound holds. -/
theorem C1_bullet_bound :
    ∀ (model : String → Int → Int → List String) (text : String) (mc : Int)
      (r : SummaryResult),
      (summarise model text mc).1 = Except.ok r → r.bullet_points.length ≤ 5 := by
  intro model text mc r h
  by_cases he : pyStrip text = ""
  · rw [summarise_empty model text mc he] at h
    cases h
    simp
  · cases h1 : model (truncInput (pyStrip text)) (effTokens mc) (minLen mc) with
    | nil =>
      rw [summarise_err1 model text mc he h1] at h
      cases h
    | cons tl tls =>
      cases h2 : model (bulletInstr ++ truncInput (pyStrip text)) (effTokens mc) (minLen mc) with
      | nil =>
        rw [summarise_err2 model text mc tl tls he h1 h2] at h
        cases h
      | cons b bs =>
        rw [summarise_ok model text mc tl b tls bs he h1 h2] at h
        cases h
        simp

/-- Witness for C1 at an empty input. -/
theorem C1_bullet_bound_witness :
    (⟨"", []⟩ : SummaryResult).bullet_points.length ≤ 5 :=
  C1_bullet_bound (fun _ _ _ => []) "" 300 ⟨"", []⟩ rfl

/-- Counterexample for C1 as stated: with a bullet draft `"-\n-"` (each line
a lone dash), `summarise` returns `bullet_points = ["", ""]`, whose entries
are empty after trimming — the non-emptiness half of the claim is false. -/
theorem C1_counterexample :
    (summarise (fun _ _ _ => ["-\n-"]) "hello" 300).1 =
      Except.ok ⟨"-\n-", ["", ""]⟩ ∧
    ¬ (∀ b ∈ ["", ""], pyStrip b ≠ "") := by
  refine ⟨rfl, fun hfa => ?_⟩
  exact hfa "" (List.mem_cons_self "" [""]) rfl

/-- Claim C4: `summarise` derives the single token budget
`max(50, min(200, max_chars))` and minimum length `effective_tokens // 4`
(Python floor division) and passes these same two values to every model
invocation it makes (TL;DR and bullet draft); concretely
`max_chars = 30` gives (50, 12) and `max_chars = 350` gives (200, 50). -/
theorem C4_token_budget :
    (∀ (model : String → Int → Int → List String) (text : String) (mc : Int)
        (c : ModelCall), c ∈ (summarise model text mc).2 →
        c.max_length = max 50 (min 200 mc) ∧
        c.min_length = Int.fdiv (max 50 (min 200 mc)) 4) ∧
    effTokens 30 = 50 ∧ minLen 30 = 12 ∧ effTokens 350 = 200 ∧ minLen 350 = 50 := by
  refine ⟨?_, by decide, by decide, by decide, by decide⟩
  intro model text mc c hc
  by_cases he : pyStrip text = ""
  · rw [summarise_empty model text mc he] at hc
    simp at hc
  · cases h1 : model (truncInput (pyStrip text)) (effTokens mc) (minLen mc) with
    | nil =>
      rw [summarise_err1 model text mc he h1] at hc
      simp at hc
      subst hc
      exact ⟨rfl, rfl⟩
    | cons tl tls =>
      cases h2 : model (bulletInstr ++ truncInput (pyStrip text)) (effTokens mc) (minLen mc) with
      | nil =>
        rw [summarise_err2 model text mc tl tls he h1 h2] at hc
        simp at hc
        rcases hc with hc | hc <;> subst hc <;> exact ⟨rfl, rfl⟩
      | cons b bs =>
        rw [summarise_ok model text mc tl b tls bs he h1 h2] at hc
        simp at hc
        rcases hc with hc | hc <;> subst hc <;> exact ⟨rfl, rfl⟩

/-- Witness for C4: the TL;DR call of a concrete run with `max_chars = 30`
carries `max_length = 50` and `min_length = 12`. -/
theorem C4_token_budget_witness :
    (⟨"hello", 50, 12⟩ : ModelCall).max_length = max 50 (min 200 (30 : Int)) ∧
    (⟨"hello", 50, 12⟩ : ModelCall).min_length =
      Int.fdiv (max 50 (min 200 (30 : Int))) 4 :=
  C4_token_budget.1 (fun _ _ _ => ["x"]) "hello" 30 ⟨"hello", 50, 12⟩ (by decide)

/-- Claim C6: for every input text that is non-empty after trimming, every
model invocation receives the trimmed text capped to its first 4000
characters (the bullet call receives it behind the fixed instruction
prefix), the cap being applied before any invocation; `truncInput` is
exactly `first 4000 characters`, and text of length at most 4000 passes
through unchanged. -/
theorem C6_truncation :
    (∀ (model : String → Int → Int → List String) (text : String) (mc : Int),
        pyStrip text ≠ "" →
        (summarise model text mc).2.map (fun c => c.input) =
            [truncInput (pyStrip text)] ∨
        (summarise model text mc).2.map (fun c => c.input) =
            [truncInput (pyStrip text), bulletInstr ++ truncInput (pyStrip text)]) ∧
    (∀ t : String, (truncInput t).data = t.data.take 4000) ∧
    (∀ t : String, t.length ≤ 4000 → truncInput t = t) := by
  refine ⟨?_, ?_, ?_⟩
  · intro model text mc he
    cases h1 : model (truncInput (pyStrip text)) (effTokens mc) (minLen mc) with
    | nil =>
      rw [summarise_err1 model text mc he h1]
      left
      simp
    | cons tl tls =>
      cases h2 : model (bulletInstr ++ truncInput (pyStrip text)) (effTokens mc) (minLen mc) with
      | nil =>
        rw [summarise_err2 model text mc tl tls he h1 h2]
        right
        simp
      | cons b bs =>
        rw [summarise_ok model text mc tl b tls bs he h1 h2]
        right
        simp
  · intro t
    unfold truncInput
    by_cases hl : t.length > 4000
    · rw [if_pos hl]
    · rw [if_neg hl]
      have : t.data.length ≤ 4000 := Nat.le_of_not_lt hl
      exact (List.take_of_length_le this).symm
  · intro t hl
    unfold truncInput
    rw [if_neg (by omega)]

/-- Witness for C6 with a short non-empty input: the only call's input is
the (untruncated) text itself. -/
theorem C6_truncation_witness :
    (summarise (fun _ _ _ => ([] : List String)) "hello" 300).2.map
        (fun c => c.input) = [truncInput (pyStrip "hello")] ∨
    (summarise (fun _ _ _ => ([] : List String)) "hello" 300).2.map
        (fun c => c.input) =
      [truncInput (pyStrip "hello"), bulletInstr ++ truncInput (pyStrip "hello")] :=
  C6_truncation.1 (fun _ _ _ => []) "hello" 300 (by decide)

/-- Claim C9: if the TL;DR invocation produces no candidate, `summarise`
fails with the index error and returns no `SummaryResult` (no fallback
TL;DR); whereas a degenerate bullet draft — one whose line-based parse
yields at most one entry — is recovered locally by the sentence-split
fallback and the call still succeeds. -/
theorem C9_asymmetry :
    (∀ (model : String → Int → Int → List String) (text : String) (mc : Int),
        pyStrip text ≠ "" →
        model (truncInput (pyStrip text)) (effTokens mc) (minLen mc) = [] →
        (summarise model text mc).1 = Except.error PyError.indexError) ∧
    (∀ (model : String → Int → Int → List String) (text : String) (mc : Int)
        (tl b : String) (tls bs : List String),
        pyStrip text ≠ "" →
        model (truncInput (pyStrip text)) (effTokens mc) (minLen mc) = tl :: tls →
        model (bulletInstr ++ truncInput (pyStrip text)) (effTokens mc) (minLen mc) = b :: bs →
        (lineParse (pyStrip b)).length ≤ 1 →
        (summarise model text mc).1 =
          Except.ok ⟨pyStrip tl, (fallbackSplit (pyStrip b)).take 5⟩) := by
  constructor
  · intro model text mc he h1
    rw [summarise_err1 model text mc he h1]
  · intro model text mc tl b tls bs he h1 h2 hlen
    rw [summarise_ok model text mc tl b tls bs he h1 h2]
    simp [if_pos hlen]

/-- Witness for C9: a model with no TL;DR candidate makes the call fail,
while a line-break-free bullet draft is recovered via the fallback. -/
theorem C9_asymmetry_witness :
    (summarise (fun _ _ _ => ([] : List String)) "hello" 300).1 =
        Except.error PyError.indexError ∧
    (summarise (fun _ _ _ => ["A. B. C"]) "hi" 300).1 =
      Except.ok ⟨pyStrip "A. B. C", (fallbackSplit (pyStrip "A. B. C")).take 5⟩ :=
  ⟨C9_asymmetry.1 (fun _ _ _ => []) "hello" 300 (by decide) rfl,
   C9_asymmetry.2 (fun _ _ _ => ["A. B. C"]) "hi" 300 "A. B. C" "A. B. C" [] []
     (by decide) rfl rfl (by decide)⟩

/-- Claim C2 (amended): for every bullet draft whose line-based parse yields
1 or fewer entries, the bullets are computed by the fallback: remove all
`•` characters, split on the literal separator `". "`, trim each fragment
and strip its leading AND trailing periods (the code's `strip(".")`
removes periods from both ends, not only trailing ones), discard fragments
empty after trimming, and truncate the list to at most 5 entries. -/
theorem C2_fallback :
    (∀ (model : String → Int → Int → List String) (text : String) (mc : Int)
        (tl b : String) (tls bs : List String),
        pyStrip text ≠ "" →
        model (truncInput (pyStrip text)) (effTokens mc) (minLen mc) = tl :: tls →
        model (bulletInstr ++ truncInput (pyStrip text)) (effTokens mc) (minLen mc) = b :: bs →
        (lineParse (pyStrip b)).length ≤ 1 →
        (summarise model text mc).1 =
          Except.ok ⟨pyStrip tl, (fallbackSplit (pyStrip b)).take 5⟩) ∧
    (summarise (fun _ _ _ => ["First point. Second point. Third point."]) "x" 300).1 =
      Except.ok ⟨"First point. Second point. Third point.",
        ["First point", "Second point", "Third point"]⟩ := by
  constructor
  · intro model text mc tl b tls bs he h1 h2 hlen
    rw [summarise_ok model text mc tl b tls bs he h1 h2]
    simp [if_pos hlen]
  · rfl

/-- Witness for C2 at the concrete draft `"A. B"`. -/
theorem C2_fallback_witness :
    (summarise (fun _ _ _ => ["A. B"]) "y" 300).1 =
      Except.ok ⟨pyStrip "A. B", (fallbackSplit (pyStrip "A. B")).take 5⟩ :=
  C2_fallback.1 (fun _ _ _ => ["A. B"]) "y" 300 "A. B" "A. B" [] []
    (by decide) rfl rfl (by decide)

/-- Counterexample for C2 as stated: on the draft `".First. .Second"` the
line parse yields one entry, so the fallback runs; the claim's procedure
(leading periods left intact) would give `[".First", ".Second"]`, but the
code strips leading periods too and `summarise` returns
`["First", "Second"]`. -/
theorem C2_counterexample :
    (lineParse ".First. .Second").length ≤ 1 ∧
    (summarise (fun _ _ _ => [".First. .Second"]) "x" 300).1 =
      Except.ok ⟨".First. .Second", ["First", "Second"]⟩ ∧
    fallbackSpecWorded ".First. .Second" = [".First", ".Second"] ∧
    (["First", "Second"] : List String) ≠ [".First", ".Second"] := by
  exact ⟨by decide, rfl, by decide, by decide⟩

/-- Claim C3: the line-based bullet parse splits the draft on line
boundaries and, per line, trims, skips empty lines, strips exactly one
leading `-`/`•`/`*` character and re-trims, keeping results in order; in
particular `"- First point\n- Second point\n- Third point"` parses to
`["First point", "Second point", "Third point"]`. -/
theorem C3_line_parse :
    (∀ s : String,
        lineParse s =
          (pySplitlines s).filterMap fun line =>
            if pyStrip line = "" then none
            else if (pyStrip line).data.head? = some '-' ∨
                (pyStrip line).data.head? = some '•' ∨
                (pyStrip line).data.head? = some '*' then
              some (pyStrip ⟨(pyStrip line).data.tail⟩)
            else some (pyStrip line)) ∧
    lineParse "- First point\n- Second point\n- Third point" =
      ["First point", "Second point", "Third point"] := by
  constructor
  · intro s
    unfold lineParse
    congr 1
    funext line
    unfold parseLine pyStrip
    cases hl : stripChars pyIsSpace line.data with
    | nil => simp [hl]
    | cons c rest =>
      have hne : (⟨c :: rest⟩ : String) ≠ "" := by
        intro hx
        have hd : c :: rest = ("" : String).data := congrArg String.data hx
        rw [show ("" : String).data = [] from rfl] at hd
        cases hd
      by_cases hc : c = '-' ∨ c = '•' ∨ c = '*' <;>
        simp [hl, hne, hc]
  · decide

/-- Claim C7: the keyword match returns exactly those items whose
lowercased `title + " " + description` has the lowercased query as a
contiguous substring, preserving relative order (it is a filter);
`strContains` means substring occurrence; and query `"nhs"` matches a feed
item titled `"NHS funding row"`. -/
theorem C7_keyword_match :
    (∀ (q : String) (items : List FeedItem),
        matchItems q items =
          items.filter fun it =>
            strContains (pyLower (it.title ++ " " ++ it.description)) (pyLower q)) ∧
    (∀ hay needle : String,
        strContains hay needle = true ↔ ∃ l r, l ++ (needle.data ++ r) = hay.data) ∧
    matchItems "nhs" [⟨"NHS funding row", "http://x", ""⟩] =
      [⟨"NHS funding row", "http://x", ""⟩] := by
  refine ⟨matchItems_eq_filter,
    fun hay needle => listContains_iff hay.data needle.data, by decide⟩

/-- Claim C8: the feed-item loop emits an item for a parsed element if and
only if its extracted title or description is non-empty; the output is the
in-order `filterMap` of the per-element extraction; and an element with
only a link is omitted. -/
theorem C8_feed_filter :
    (∀ elems : List XmlElement, parseItems elems = elems.filterMap extractItem) ∧
    (∀ e : XmlElement, extractItem e ≠ none ↔ (elemTitle e ≠ "" ∨ elemDesc e ≠ "")) ∧
    parseItems [⟨none, some ⟨"http://x", false, some "http://x"⟩, none, none⟩] = [] := by
  refine ⟨?_, ?_, by decide⟩
  · intro elems
    unfold parseItems
    have h := foldl_appendItem_filterMap elems []
    rw [List.nil_append] at h
    exact h
  · intro e
    unfold extractItem
    rcases Classical.em (elemTitle e = "" ∧ elemDesc e = "") with h | h
    · rw [if_pos h]
      simp [h.1, h.2]
    · rw [if_neg h]
      simpa using not_and_or.mp h

/-- Claim C10: the keyword match with the empty-string query is the
identity on the item list — the empty string occurs in every haystack and
the matcher performs no empty-query rejection. -/
theorem C10_empty_query :
    ∀ items : List FeedItem, matchItems "" items = items := by
  intro items
  rw [matchItems_eq_filter]
  refine List.filter_eq_self.mpr fun it _ => ?_
  exact listContains_nil _

end NewsTldr
